import Mathlib

/-!
Verification of the download-service chunked retrieval pipeline.

The Go sources are embedded shallowly:
* `Service.Download` (download/download.go) becomes `Download`, a pure
  function over a `World` oracle that supplies the results of the S3
  client calls (`HeadObjectWithContext`, `GetObjectWithContext` +
  `ReadAll`) and of `stream.Send`; it returns the call's result together
  with the ordered trace of observable events (store calls, sink sends,
  error logging).
* `StreamReadCloser.Read` (download/download.go) becomes `Read`.
* `ExtractTraceParent` (logger/logger.go) becomes `ExtractTraceParent`,
  parameterised by the traceparent parser (an external library).
* `healthCheckWorker` (server.go) becomes `healthCheckWorker`,
  parameterised by the per-tick result of `ListBuckets`.

Go `int64` arithmetic is modelled on `Nat`: every quantity involved
(object size, part index, range offsets) is non-negative in the source,
and the one subtraction `ContentLength - 1` is only reached when the
part loop runs, i.e. when `ContentLength ≥ 1`.
-/

namespace DownloadService

/-- `PartSize` is the number of bytes that an object part has, `5 << 20` (5 MiB). -/
def PartSize : Nat := 5 <<< 20

/-- The fields of `pb.DownloadRequest` read by `Download` (`GetKey`, `GetBucket`). -/
structure DownloadRequest where
  bucket : String
  key : String
deriving DecidableEq, Repr

/-- Modelled from the spec: the causes of a failed store operation named in
section 4.1 — object/bucket absent or a transient network failure.  The Go
code only sees an opaque `error` from the S3 client; the cause is carried
here so that the spec's error taxonomy can be applied to it. -/
inductive StoreFailure
  | noSuchKey (msg : String)
  | noSuchBucket (msg : String)
  | transient (msg : String)
deriving DecidableEq, Repr

/-- Outcome of one `GetObjectWithContext` call followed by `ioutil.ReadAll`
on its body: the fetch itself can fail, reading the body can fail, or the
part's bytes are produced. -/
inductive FetchOutcome
  | fetchErr (cause : StoreFailure)
  | readErr (msg : String)
  | ok (bytes : List Nat)
deriving DecidableEq, Repr

/-- Oracle for one `Download` call: the results the environment would give
to each external interaction.  `headResult` is what `HeadObjectWithContext`
returns (`ContentLength` on success); `getResult part rangeStart rangeEnd`
is the outcome of fetching and draining that part; `sendResult part` is
`none` when `stream.Send` succeeds and `some msg` when it fails;
`traceParent` is what `ilogger.ExtractTraceParent(stream.Context())`
yields for this call. -/
structure World where
  headResult : Except StoreFailure Nat
  getResult : Nat → Nat → Nat → FetchOutcome
  sendResult : Nat → Option String
  traceParent : String

/-- The terminal errors of `Service.Download`, one constructor per
`return`-with-error site in the source, carrying exactly the data the
corresponding `fmt.Errorf` format string interpolates (`sendFailed`
carries the sink's own error, returned unwrapped). -/
inductive DownloadErr
  | keyRequired
  | bucketRequired
  | headFailed (bucket key : String) (cause : StoreFailure)
  | getFailed (bucket key : String) (cause : StoreFailure)
  | readFailed (part : Nat) (msg : String)
  | sendFailed (msg : String)
deriving DecidableEq, Repr

/-- Observable events of one `Download` call, in program order: store
calls (`head`, `get`), sink sends, and the error-log write performed on a
send failure. -/
inductive Event
  | head (bucket key : String)
  | get (bucket key : String) (part rangeStart rangeEnd : Nat)
  | send (part : Nat) (payload : List Nat)
  | log (traceId : String)
deriving DecidableEq, Repr

/-- `rangeStart := currentPart * PartSize`. -/
def rangeStartOf (part : Nat) : Nat := part * PartSize

/-- `rangeEnd := rangeStart + PartSize - 1; if rangeEnd > ContentLength
{ rangeEnd = ContentLength - 1 }`. -/
def rangeEndOf (size part : Nat) : Nat :=
  let rangeEnd := rangeStartOf part + PartSize - 1
  if rangeEnd > size then size - 1 else rangeEnd

/-- `totalParts := ContentLength / PartSize; if ContentLength % PartSize >
0 { totalParts++ }`. -/
def totalPartsOf (size : Nat) : Nat :=
  size / PartSize + (if size % PartSize > 0 then 1 else 0)

/-- The part loop of `Service.Download`, one list entry per loop
iteration (the caller passes `List.range totalParts`).  Each iteration
fetches the part's range, and on success hands the bytes to the sink; any
failure returns immediately with the corresponding error, a send failure
additionally writing the error log line with the call's trace id. -/
def downloadParts (w : World) (bucket key : String) (size : Nat) :
    List Nat → Except DownloadErr Unit × List Event
  | [] => (.ok (), [])
  | part :: rest =>
    let rs := rangeStartOf part
    let re := rangeEndOf size part
    match w.getResult part rs re with
    | .fetchErr cause => (.error (.getFailed bucket key cause), [.get bucket key part rs re])
    | .readErr msg => (.error (.readFailed part msg), [.get bucket key part rs re])
    | .ok bytes =>
      match w.sendResult part with
      | some msg =>
        (.error (.sendFailed msg),
          [.get bucket key part rs re, .send part bytes, .log w.traceParent])
      | none =>
        let out := downloadParts w bucket key size rest
        (out.1, .get bucket key part rs re :: .send part bytes :: out.2)

/-- `Service.Download`: validate `key` and `bucket`, probe the object's
length with `HeadObjectWithContext`, then run the part loop. -/
def Download (w : World) (req : DownloadRequest) :
    Except DownloadErr Unit × List Event :=
  if req.key = "" then (.error .keyRequired, [])
  else if req.bucket = "" then (.error .bucketRequired, [])
  else
    match w.headResult with
    | .error cause => (.error (.headFailed req.bucket req.key cause), [.head req.bucket req.key])
    | .ok size =>
      let out := downloadParts w req.bucket req.key size (List.range (totalPartsOf size))
      (out.1, .head req.bucket req.key :: out.2)

/-- The payloads handed to the sink, in send order. -/
def sentChunks (trace : List Event) : List (List Nat) :=
  trace.filterMap fun e =>
    match e with
    | .send _ payload => some payload
    | _ => none

/-- The store calls issued during the call, in order. -/
def storeCalls (trace : List Event) : List Event :=
  trace.filter fun e =>
    match e with
    | .head _ _ => true
    | .get _ _ _ _ _ => true
    | _ => false

/-- The inclusive byte ranges of the `get` store calls, in order. -/
def getRanges (trace : List Event) : List (Nat × Nat) :=
  trace.filterMap fun e =>
    match e with
    | .get _ _ _ rs re => some (rs, re)
    | _ => none

/-- Modelled from the spec: the external S3-compatible object store
holding an object with byte content `content` (section 2's capability
surface).  `headMetadata` reports the object's size; a range fetch for
inclusive `[rangeStart, rangeEnd]` returns the object's bytes from
`rangeStart` through `min rangeEnd (size - 1)` (HTTP byte-range
semantics: a range end past the last byte is clamped to it). -/
def getRange (content : List Nat) (rangeStart rangeEnd : Nat) : List Nat :=
  (content.drop rangeStart).take (rangeEnd - rangeStart + 1)

/-- Modelled from the spec: the world of a healthy store holding one
object with byte content `content`, a sink that accepts every message,
and no trace header. -/
def s3World (content : List Nat) : World :=
  { headResult := .ok content.length
    getResult := fun _ rs re => .ok (getRange content rs re)
    sendResult := fun _ => none
    traceParent := "" }

/-- The chunk payloads a client receives for an object with byte content
`content`. -/
def downloadChunks (content : List Nat) (req : DownloadRequest) : List (List Nat) :=
  sentChunks (Download (s3World content) req).2

/-- Modelled from the spec: the error taxonomy of section 7. -/
inductive ErrClass
  | invalidArgument
  | notFound
  | unavailable
  | internal
  | cancelled
deriving DecidableEq, Repr

/-- Modelled from the spec: classification of a store failure cause —
object/bucket absent is `NotFound`, a transient network failure is
`Unavailable`. -/
def causeClass : StoreFailure → ErrClass
  | .noSuchKey _ => .notFound
  | .noSuchBucket _ => .notFound
  | .transient _ => .unavailable

/-- Modelled from the spec: section 7's taxonomy applied to the terminal
errors of `Download` — missing bucket/key is `InvalidArgument`, store
failures classify by cause, a malformed body read or a transport send
failure is `Internal`. -/
def errClass : DownloadErr → ErrClass
  | .keyRequired => .invalidArgument
  | .bucketRequired => .invalidArgument
  | .headFailed _ _ cause => causeClass cause
  | .getFailed _ _ cause => causeClass cause
  | .readFailed _ _ => .internal
  | .sendFailed _ => .internal

/-- The trace id held by a parsed traceparent header value
(`traceCtx.Trace.String()`). -/
structure TraceContext where
  traceId : String
deriving DecidableEq, Repr

/-- `ExtractTraceParent` (logger/logger.go): the inbound metadata's values
for the `Elastic-Apm-Traceparent` header are `none` when the context
carries no metadata and `some values` otherwise (`md.Get` of an absent
key gives the empty list); `parse` is `apmhttp.ParseTraceparentHeader`.
Exactly one header value that parses yields its trace id; every other
case yields the empty string. -/
def ExtractTraceParent (parse : String → Except String TraceContext)
    (headerValues : Option (List String)) : String :=
  match headerValues with
  | some values =>
    match values with
    | [v] =>
      match parse v with
      | .ok traceCtx => traceCtx.traceId
      | .error _ => ""
    | _ => ""
  | none => ""

/-- The two serving states the health worker writes
(`grpc_health_v1.HealthCheckResponse_SERVING` / `NOT_SERVING`). -/
inductive HealthState
  | serving
  | notServing
deriving DecidableEq, Repr

/-- `healthCheckWorker` (server.go): each tick calls `ListBuckets`
(`listBuckets n` is `some msg` when tick `n`'s probe fails, `none` when
it succeeds) and sets the serving status accordingly, then sleeps and
continues; `healthCheckWorker listBuckets n` is the list of states
written by the first `n` ticks. -/
def healthCheckWorker (listBuckets : Nat → Option String) : Nat → List HealthState
  | 0 => []
  | n + 1 =>
    healthCheckWorker listBuckets n ++
      [match listBuckets n with
       | some _ => HealthState.notServing
       | none => HealthState.serving]

/-- The errors `StreamReadCloser.Read` can return: the buffer-length
sentinel, or an error from `stream.Recv`. -/
inductive ReadErr
  | bufferLength
  | streamErr (msg : String)
deriving DecidableEq, Repr

/-- `ErrBufferLength`, the buffer-length error value of
download/download.go (errors are compared by value here; the source
returns a fresh error carrying this same message). -/
def ErrBufferLength : ReadErr := .bufferLength

/-- `StreamReadCloser.Read` (download/download.go): `recvResult` is what
`r.stream.Recv()` would return (`chunk.GetFile()` on success), `pLen` is
`len(p)`.  Returns `(n, err)` together with whether `Recv` was called.
`copy(p, part)` returns `min(len(p), len(part))`. -/
def Read (recvResult : Except String (List Nat)) (pLen : Nat) :
    (Nat × Option ReadErr) × Bool :=
  if pLen < PartSize then ((0, some ErrBufferLength), false)
  else
    match recvResult with
    | .error msg => ((0, some (.streamErr msg)), true)
    | .ok part =>
      let read := if pLen ≥ part.length then min pLen part.length else 0
      ((read, none), true)

/-! Helper lemmas about the part loop run against the modelled store. -/

lemma PartSize_eq : PartSize = 5242880 := rfl

lemma take_add_split {α : Type} (l : List α) (m n : Nat) :
    l.take (m + n) = l.take m ++ (l.drop m).take n := by
  induction m generalizing l with
  | zero => simp
  | succ k ih =>
    cases l with
    | nil => simp
    | cons a t => simp [Nat.succ_add, List.take_succ_cons, List.drop_succ_cons, ih]

/-- The bytes the modelled store hands back for part `p`'s (possibly
unclamped) requested range are exactly the `PartSize`-byte slice of the
object starting at the part's offset. -/
lemma getRange_eq_take (content : List Nat) (part : Nat) :
    getRange content (rangeStartOf part) (rangeEndOf content.length part) =
      (content.drop (rangeStartOf part)).take PartSize := by
  unfold getRange rangeEndOf
  set a := rangeStartOf part with ha
  by_cases h : a + PartSize - 1 > content.length
  · rw [if_pos h]
    have hlen : (content.drop a).length = content.length - a := List.length_drop a content
    have h1 : (content.drop a).length ≤ content.length - 1 - a + 1 := by
      rw [hlen, PartSize_eq] at *
      omega
    have h2 : (content.drop a).length ≤ PartSize := by
      rw [hlen, PartSize_eq] at *
      omega
    rw [List.take_of_length_le h1, List.take_of_length_le h2]
  · rw [if_neg h]
    have : a + PartSize - 1 - a + 1 = PartSize := by
      rw [PartSize_eq] at *
      omega
    rw [this]

/-- Against the modelled store every iteration of the part loop succeeds,
fetching and sending one slice per part, in order. -/
lemma s3_downloadParts (content : List Nat) (bucket key : String) (l : List Nat) :
    downloadParts (s3World content) bucket key content.length l =
      (.ok (), l.flatMap fun p =>
        [Event.get bucket key p (rangeStartOf p) (rangeEndOf content.length p),
         Event.send p ((content.drop (rangeStartOf p)).take PartSize)]) := by
  induction l with
  | nil => rfl
  | cons p rest ih =>
    have hget : (s3World content).getResult p (rangeStartOf p) (rangeEndOf content.length p) =
        .ok ((content.drop (rangeStartOf p)).take PartSize) := by
      have hraw : (s3World content).getResult p (rangeStartOf p) (rangeEndOf content.length p) =
          .ok (getRange content (rangeStartOf p) (rangeEndOf content.length p)) := rfl
      rw [hraw, getRange_eq_take]
    have hsend : (s3World content).sendResult p = none := rfl
    simp only [downloadParts, hget, hsend, ih, List.flatMap_cons]
    simp

lemma sentChunks_flat (content : List Nat) (bucket key : String) (l : List Nat) :
    sentChunks (l.flatMap fun p =>
        [Event.get bucket key p (rangeStartOf p) (rangeEndOf content.length p),
         Event.send p ((content.drop (rangeStartOf p)).take PartSize)]) =
      l.map fun p => (content.drop (rangeStartOf p)).take PartSize := by
  induction l with
  | nil => rfl
  | cons p rest ih => simp only [sentChunks, List.flatMap_cons] at ih ⊢; simp [ih]

lemma getRanges_flat (content : List Nat) (bucket key : String) (l : List Nat) :
    getRanges (l.flatMap fun p =>
        [Event.get bucket key p (rangeStartOf p) (rangeEndOf content.length p),
         Event.send p ((content.drop (rangeStartOf p)).take PartSize)]) =
      l.map fun p => (rangeStartOf p, rangeEndOf content.length p) := by
  induction l with
  | nil => rfl
  | cons p rest ih => simp only [getRanges, List.flatMap_cons] at ih ⊢; simp [ih]

/-- A valid request against the modelled store succeeds. -/
lemma s3_Download_ok (content : List Nat) (req : DownloadRequest)
    (hk : req.key ≠ "") (hb : req.bucket ≠ "") :
    (Download (s3World content) req).1 = .ok () := by
  have hh : (s3World content).headResult = Except.ok content.length := rfl
  simp [Download, hk, hb, hh, s3_downloadParts]

/-- The chunks a valid request receives from the modelled store: one
`PartSize`-byte slice per part index. -/
lemma downloadChunks_eq (content : List Nat) (req : DownloadRequest)
    (hk : req.key ≠ "") (hb : req.bucket ≠ "") :
    downloadChunks content req =
      (List.range (totalPartsOf content.length)).map fun p =>
        (content.drop (rangeStartOf p)).take PartSize := by
  unfold downloadChunks
  have hD : Download (s3World content) req =
      (.ok (), .head req.bucket req.key ::
        ((List.range (totalPartsOf content.length)).flatMap fun p =>
          [Event.get req.bucket req.key p (rangeStartOf p) (rangeEndOf content.length p),
           Event.send p ((content.drop (rangeStartOf p)).take PartSize)])) := by
    have hh : (s3World content).headResult = Except.ok content.length := rfl
    simp [Download, hk, hb, hh, s3_downloadParts]
  rw [hD]
  exact sentChunks_flat content req.bucket req.key _

/-- The ranges a valid request asks the modelled store for. -/
lemma downloadRanges_eq (content : List Nat) (req : DownloadRequest)
    (hk : req.key ≠ "") (hb : req.bucket ≠ "") :
    getRanges (Download (s3World content) req).2 =
      (List.range (totalPartsOf content.length)).map fun p =>
        (rangeStartOf p, rangeEndOf content.length p) := by
  have hD : Download (s3World content) req =
      (.ok (), .head req.bucket req.key ::
        ((List.range (totalPartsOf content.length)).flatMap fun p =>
          [Event.get req.bucket req.key p (rangeStartOf p) (rangeEndOf content.length p),
           Event.send p ((content.drop (rangeStartOf p)).take PartSize)])) := by
    have hh : (s3World content).headResult = Except.ok content.length := rfl
    simp [Download, hk, hb, hh, s3_downloadParts]
  rw [hD]
  exact getRanges_flat content req.bucket req.key _

lemma le_totalParts_mul (S : Nat) : S ≤ totalPartsOf S * PartSize := by
  unfold totalPartsOf
  rw [PartSize_eq]
  by_cases h : S % 5242880 > 0 <;> simp [h] <;> omega

lemma totalParts_eq_ceil (S : Nat) : totalPartsOf S = (S + PartSize - 1) / PartSize := by
  unfold totalPartsOf
  rw [PartSize_eq]
  by_cases h : S % 5242880 > 0 <;> simp [h] <;> omega

lemma flatten_pieces (content : List Nat) (n : Nat) :
    ((List.range n).map fun p => (content.drop (rangeStartOf p)).take PartSize).flatten =
      content.take (n * PartSize) := by
  induction n with
  | zero => simp
  | succ m ih =>
    rw [List.range_succ, List.map_append, List.flatten_append, ih]
    simp only [List.map_cons, List.map_nil, List.flatten_cons, List.flatten_nil,
      List.append_nil]
    rw [Nat.succ_mul, take_add_split]
    rfl

/-- A valid request reduces to the part loop over `range totalParts`. -/
lemma Download_valid_eq (w : World) (req : DownloadRequest) (size : Nat)
    (hk : req.key ≠ "") (hb : req.bucket ≠ "") (hhead : w.headResult = .ok size) :
    Download w req =
      ((downloadParts w req.bucket req.key size (List.range (totalPartsOf size))).1,
       .head req.bucket req.key ::
         (downloadParts w req.bucket req.key size (List.range (totalPartsOf size))).2) := by
  simp only [Download, if_neg hk, if_neg hb, hhead]

/-- Splitting the part loop after a fully successful run over `l₁`. -/
lemma downloadParts_append_ok (w : World) (bucket key : String) (size : Nat)
    (l₁ l₂ : List Nat) (bytesOf : Nat → List Nat)
    (hget : ∀ j ∈ l₁, w.getResult j (rangeStartOf j) (rangeEndOf size j) = .ok (bytesOf j))
    (hsendok : ∀ j ∈ l₁, w.sendResult j = none) :
    downloadParts w bucket key size (l₁ ++ l₂) =
      ((downloadParts w bucket key size l₂).1,
       (l₁.flatMap fun j =>
         [Event.get bucket key j (rangeStartOf j) (rangeEndOf size j),
          Event.send j (bytesOf j)]) ++ (downloadParts w bucket key size l₂).2) := by
  induction l₁ with
  | nil => simp
  | cons p rest ih =>
    have hg : w.getResult p (rangeStartOf p) (rangeEndOf size p) = .ok (bytesOf p) :=
      hget p (by simp)
    have hs : w.sendResult p = none := hsendok p (by simp)
    have ih' := ih (fun j hj => hget j (by simp [hj])) (fun j hj => hsendok j (by simp [hj]))
    simp only [List.cons_append, downloadParts, hg, hs, ih', List.flatMap_cons]
    simp
    exact ⟨by rw [ih'], by rw [ih']⟩

/-- Splitting `range n` at a part `i` preceded by successful iterations. -/
lemma downloadParts_range_split (w : World) (bucket key : String) (size i n : Nat)
    (bytesOf : Nat → List Nat) (hin : i < n)
    (hget : ∀ j, j < i → w.getResult j (rangeStartOf j) (rangeEndOf size j) = .ok (bytesOf j))
    (hsendok : ∀ j, j < i → w.sendResult j = none) :
    downloadParts w bucket key size (List.range n) =
      ((downloadParts w bucket key size
          (i :: (List.range (n - i - 1)).map ((i + 1) + ·))).1,
       ((List.range i).flatMap fun j =>
         [Event.get bucket key j (rangeStartOf j) (rangeEndOf size j),
          Event.send j (bytesOf j)]) ++
        (downloadParts w bucket key size
          (i :: (List.range (n - i - 1)).map ((i + 1) + ·))).2) := by
  have hdecomp : List.range n =
      List.range i ++ i :: (List.range (n - i - 1)).map ((i + 1) + ·) := by
    have h1 : n = (i + 1) + (n - i - 1) := by omega
    conv_lhs => rw [h1]
    rw [List.range_add, List.range_succ]
    simp
  rw [hdecomp]
  exact downloadParts_append_ok w bucket key size (List.range i) _ bytesOf
    (fun j hj => hget j (List.mem_range.1 hj))
    (fun j hj => hsendok j (List.mem_range.1 hj))

/-! Concrete worlds used by the witnesses. -/

/-- A store whose metadata probe fails because the key is absent. -/
def probeFailWorld : World :=
  { headResult := .error (.noSuchKey "NoSuchKey")
    getResult := fun _ _ _ => .ok []
    sendResult := fun _ => none
    traceParent := "" }

/-- A healthy one-byte store behind a sink that rejects every send. -/
def sendFailWorld : World :=
  { headResult := .ok 1
    getResult := fun _ _ _ => .ok [42]
    sendResult := fun _ => some "rpc error: code = Canceled desc = context canceled"
    traceParent := "tid" }

/-- A one-byte store whose range fetch fails with a transient error. -/
def fetchFailWorld : World :=
  { headResult := .ok 1
    getResult := fun _ _ _ => .fetchErr (.transient "context canceled")
    sendResult := fun _ => none
    traceParent := "" }

/-- A fixed traceparent parser accepting exactly one header value. -/
def parseFix : String → Except String TraceContext :=
  fun s => if s = "00-abc" then .ok ⟨"abc"⟩ else .error "invalid traceparent"

/-- C1: against a store holding an object of size `S = content.length`, a
valid request succeeds after emitting exactly `ceil(S / PartSize)` chunks
(`PartSize` being 5 MiB); every chunk except the last has length exactly
`PartSize`, the last has length `S % PartSize` (or `PartSize` when `S` is
an exact multiple), and a zero-length object yields a successful call
with zero chunks. -/
theorem C1_chunk_count_and_sizes (content : List Nat) (req : DownloadRequest)
    (hk : req.key ≠ "") (hb : req.bucket ≠ "") :
    PartSize = 5 * 1024 * 1024 ∧
    (Download (s3World content) req).1 = .ok () ∧
    (downloadChunks content req).length = (content.length + PartSize - 1) / PartSize ∧
    (∀ c ∈ (downloadChunks content req).dropLast, c.length = PartSize) ∧
    (∀ c, (downloadChunks content req).getLast? = some c →
      c.length =
        if content.length % PartSize = 0 then PartSize else content.length % PartSize) ∧
    (content.length = 0 → downloadChunks content req = []) := by
  have hchunks := downloadChunks_eq content req hk hb
  refine ⟨rfl, s3_Download_ok content req hk hb, ?_, ?_, ?_, ?_⟩
  · rw [hchunks, List.length_map, List.length_range, totalParts_eq_ceil]
  · rw [hchunks]
    intro c hc
    cases hn : totalPartsOf content.length with
    | zero => rw [hn] at hc; simp at hc
    | succ m =>
      rw [hn, List.range_succ, List.map_append] at hc
      simp only [List.map_cons, List.map_nil, List.dropLast_concat] at hc
      obtain ⟨p, hp, rfl⟩ := List.mem_map.1 hc
      have hpm : p < m := List.mem_range.1 hp
      rw [List.length_take, List.length_drop]
      unfold totalPartsOf at hn
      unfold rangeStartOf
      rw [PartSize_eq] at hn ⊢
      by_cases h0 : content.length % 5242880 > 0 <;> simp [h0] at hn <;> omega
  · rw [hchunks]
    intro c hc
    cases hn : totalPartsOf content.length with
    | zero => rw [hn] at hc; simp at hc
    | succ m =>
      rw [hn, List.range_succ, List.map_append] at hc
      simp only [List.map_cons, List.map_nil, List.getLast?_concat, Option.some_inj] at hc
      subst hc
      rw [List.length_take, List.length_drop]
      unfold totalPartsOf at hn
      unfold rangeStartOf
      rw [PartSize_eq] at hn ⊢
      by_cases h0 : content.length % 5242880 = 0
      · rw [if_pos h0]
        rw [if_neg (by omega)] at hn
        omega
      · rw [if_neg h0]
        rw [if_pos (by omega)] at hn
        omega
  · intro h0
    rw [hchunks]
    have hz : totalPartsOf content.length = 0 := by rw [h0]; rfl
    rw [hz]
    rfl

/-- Witness for C1 at a three-byte object (one chunk, of length
`3 = S % PartSize`). -/
theorem C1_chunk_count_and_sizes_witness :
    ("test.txt" : String) ≠ "" ∧
    downloadChunks [7, 8, 9] ⟨"testbucket", "test.txt"⟩ = [[7, 8, 9]] ∧
    (downloadChunks [7, 8, 9] ⟨"testbucket", "test.txt"⟩).length =
      (([7, 8, 9] : List Nat).length + PartSize - 1) / PartSize ∧
    (∀ c, (downloadChunks [7, 8, 9] ⟨"testbucket", "test.txt"⟩).getLast? = some c →
      c.length =
        if ([7, 8, 9] : List Nat).length % PartSize = 0 then PartSize
        else ([7, 8, 9] : List Nat).length % PartSize) :=
  ⟨by decide,
   by rw [downloadChunks_eq [7, 8, 9] ⟨"testbucket", "test.txt"⟩ (by decide) (by decide)]; rfl,
   (C1_chunk_count_and_sizes [7, 8, 9] ⟨"testbucket", "test.txt"⟩ (by decide) (by decide)).2.2.1,
   (C1_chunk_count_and_sizes [7, 8, 9] ⟨"testbucket", "test.txt"⟩
      (by decide) (by decide)).2.2.2.2.1⟩

/-- C2: for any object content, a valid request succeeds and the
concatenation of the sent chunk payloads, in send order, is exactly the
object's bytes. -/
theorem C2_roundtrip (content : List Nat) (req : DownloadRequest)
    (hk : req.key ≠ "") (hb : req.bucket ≠ "") :
    (Download (s3World content) req).1 = .ok () ∧
    (downloadChunks content req).flatten = content := by
  refine ⟨s3_Download_ok content req hk hb, ?_⟩
  rw [downloadChunks_eq content req hk hb, flatten_pieces]
  exact List.take_of_length_le (le_totalParts_mul content.length)

/-- Witness for C2 at a two-byte object. -/
theorem C2_roundtrip_witness :
    (Download (s3World [5, 6]) ⟨"testbucket", "test.txt"⟩).1 = .ok () ∧
    (downloadChunks [5, 6] ⟨"testbucket", "test.txt"⟩).flatten = [5, 6] :=
  C2_roundtrip [5, 6] ⟨"testbucket", "test.txt"⟩ (by decide) (by decide)

/-- C3, evaluated at the failing input: for an object of size
`S = PartSize - 1 = 5242879` the code requests the single inclusive range
`[0, 5242879]`, whose end is the object's size `S` and not `S - 1` — the
clamp `if rangeEnd > ContentLength` misses the `rangeEnd = ContentLength`
case, so the requested ranges cover `[0, S]` rather than exactly
`[0, S)`. -/
lemma ranges_at_5242879 (content : List Nat) (hlen : content.length = 5242879) :
    getRanges (Download (s3World content) ⟨"testbucket", "test.txt"⟩).2 = [(0, 5242879)] := by
  rw [downloadRanges_eq _ _ (by decide) (by decide), hlen]
  have hn : totalPartsOf 5242879 = 1 := by
    unfold totalPartsOf
    rw [PartSize_eq]
    decide
  have h1 : List.range 1 = [0] := rfl
  rw [hn, h1, List.map_cons, List.map_nil]
  have hs : rangeStartOf 0 = 0 := by unfold rangeStartOf; simp
  have he : rangeEndOf 5242879 0 = 5242879 := by
    unfold rangeEndOf rangeStartOf
    rw [PartSize_eq]
    norm_num
  rw [hs, he]

theorem C3_range_clamp_failing :
    getRanges (Download (s3World (List.replicate 5242879 0)) ⟨"testbucket", "test.txt"⟩).2 =
      [(0, 5242879)] ∧
    (List.replicate 5242879 (0 : Nat)).length = 5242879 ∧
    (5242879 : Nat) ≠ 5242879 - 1 :=
  ⟨ranges_at_5242879 _ (List.length_replicate 5242879 0),
   List.length_replicate 5242879 0, by omega⟩

/-- C4: a request with empty key or empty bucket fails with an
`InvalidArgument`-class error and an empty event trace — no store call
(neither metadata probe nor range fetch) is issued; validation happens
before any store access. -/
theorem C4_validation_before_store (w : World) (req : DownloadRequest)
    (h : req.key = "" ∨ req.bucket = "") :
    (∃ e, Download w req = (.error e, []) ∧ errClass e = .invalidArgument) ∧
    storeCalls (Download w req).2 = [] := by
  by_cases hk : req.key = ""
  · have hD : Download w req = (.error .keyRequired, []) := by simp [Download, hk]
    exact ⟨⟨.keyRequired, hD, rfl⟩, by rw [hD]; rfl⟩
  · have hb : req.bucket = "" := by tauto
    have hD : Download w req = (.error .bucketRequired, []) := by simp [Download, hk, hb]
    exact ⟨⟨.bucketRequired, hD, rfl⟩, by rw [hD]; rfl⟩

/-- Witness for C4 at an empty key. -/
theorem C4_validation_before_store_witness :
    (("" : String) = "" ∨ ("testbucket" : String) = "") ∧
    ((∃ e, Download probeFailWorld ⟨"testbucket", ""⟩ = (.error e, []) ∧
        errClass e = .invalidArgument) ∧
      storeCalls (Download probeFailWorld ⟨"testbucket", ""⟩).2 = []) :=
  ⟨Or.inl rfl, C4_validation_before_store probeFailWorld ⟨"testbucket", ""⟩ (Or.inl rfl)⟩

/-- C5: if every part before `i` is fetched and sent successfully and the
sink send of part `i` fails, the call's trace is exactly the probe, the
per-part fetch/send pairs for parts `0..i-1` (which therefore remain
sent), the fetch and attempted send of part `i`, and one error-log write
carrying the call's trace id; the loop stops there — no later store call
or send appears — and the send's own error is the call's terminal
error. -/
theorem C5_send_failure_aborts (w : World) (req : DownloadRequest) (size i : Nat)
    (bytesOf : Nat → List Nat) (msg : String)
    (hk : req.key ≠ "") (hb : req.bucket ≠ "") (hhead : w.headResult = .ok size)
    (hi : i < totalPartsOf size)
    (hget : ∀ j, j ≤ i → w.getResult j (rangeStartOf j) (rangeEndOf size j) = .ok (bytesOf j))
    (hsendok : ∀ j, j < i → w.sendResult j = none)
    (hfail : w.sendResult i = some msg) :
    Download w req =
      (.error (.sendFailed msg),
       .head req.bucket req.key ::
         (((List.range i).flatMap fun j =>
            [Event.get req.bucket req.key j (rangeStartOf j) (rangeEndOf size j),
             Event.send j (bytesOf j)]) ++
          [.get req.bucket req.key i (rangeStartOf i) (rangeEndOf size i),
           .send i (bytesOf i), .log w.traceParent])) := by
  rw [Download_valid_eq w req size hk hb hhead,
    downloadParts_range_split w req.bucket req.key size i (totalPartsOf size) bytesOf hi
      (fun j hj => hget j (Nat.le_of_lt hj)) hsendok]
  have hstep : downloadParts w req.bucket req.key size
      (i :: (List.range (totalPartsOf size - i - 1)).map ((i + 1) + ·)) =
      (.error (.sendFailed msg),
       [.get req.bucket req.key i (rangeStartOf i) (rangeEndOf size i),
        .send i (bytesOf i), .log w.traceParent]) := by
    simp only [downloadParts, hget i (Nat.le_refl i), hfail]
  rw [hstep]

/-- Witness for C5: a one-byte object behind a sink whose first send
fails. -/
theorem C5_send_failure_aborts_witness :
    Download sendFailWorld ⟨"b", "k"⟩ =
      (.error (.sendFailed "rpc error: code = Canceled desc = context canceled"),
       [.head "b" "k", .get "b" "k" 0 0 0, .send 0 [42], .log "tid"]) :=
  C5_send_failure_aborts sendFailWorld ⟨"b", "k"⟩ 1 0 (fun _ => [42])
    "rpc error: code = Canceled desc = context canceled"
    (by decide) (by decide) rfl (by decide)
    (fun _ _ => rfl) (fun j hj => absurd hj (Nat.not_lt_zero j)) rfl

/-- C7 as amended: `Download` performs no standalone cancellation check —
cancelling the call makes its next context-aware store call or stream
send fail, and that failure ends the loop: a fetch failure at part `i`
(which is how a cancelled context surfaces at a fetch) terminates the
call with the bucket/key-wrapped fetch error, the trace ending at that
very fetch with no later store call or send; moreover no terminal error
of `Download` is ever classified `Cancelled`. -/
theorem C7_cancellation_surfaces_as_failed_call (w : World) (req : DownloadRequest)
    (size i : Nat) (cause : StoreFailure) (bytesOf : Nat → List Nat)
    (hk : req.key ≠ "") (hb : req.bucket ≠ "") (hhead : w.headResult = .ok size)
    (hi : i < totalPartsOf size)
    (hget : ∀ j, j < i → w.getResult j (rangeStartOf j) (rangeEndOf size j) = .ok (bytesOf j))
    (hsendok : ∀ j, j < i → w.sendResult j = none)
    (hfail : w.getResult i (rangeStartOf i) (rangeEndOf size i) = .fetchErr cause) :
    Download w req =
      (.error (.getFailed req.bucket req.key cause),
       .head req.bucket req.key ::
         (((List.range i).flatMap fun j =>
            [Event.get req.bucket req.key j (rangeStartOf j) (rangeEndOf size j),
             Event.send j (bytesOf j)]) ++
          [.get req.bucket req.key i (rangeStartOf i) (rangeEndOf size i)])) ∧
    (∀ e : DownloadErr, errClass e ≠ .cancelled) := by
  constructor
  · rw [Download_valid_eq w req size hk hb hhead,
      downloadParts_range_split w req.bucket req.key size i (totalPartsOf size) bytesOf hi
        hget hsendok]
    have hstep : downloadParts w req.bucket req.key size
        (i :: (List.range (totalPartsOf size - i - 1)).map ((i + 1) + ·)) =
        (.error (.getFailed req.bucket req.key cause),
         [.get req.bucket req.key i (rangeStartOf i) (rangeEndOf size i)]) := by
      simp only [downloadParts, hfail]
    rw [hstep]
  · intro e h
    cases e with
    | keyRequired => simp [errClass] at h
    | bucketRequired => simp [errClass] at h
    | headFailed b k c => cases c <;> simp [errClass, causeClass] at h
    | getFailed b k c => cases c <;> simp [errClass, causeClass] at h
    | readFailed p m => simp [errClass] at h
    | sendFailed m => simp [errClass] at h

/-- Witness for C7's amended statement: a cancelled context surfacing as
a transient fetch failure at part 0. -/
theorem C7_cancellation_witness :
    Download fetchFailWorld ⟨"b", "k"⟩ =
      (.error (.getFailed "b" "k" (.transient "context canceled")),
       [.head "b" "k", .get "b" "k" 0 0 0]) ∧
    (∀ e : DownloadErr, errClass e ≠ .cancelled) :=
  C7_cancellation_surfaces_as_failed_call fetchFailWorld ⟨"b", "k"⟩ 1 0
    (.transient "context canceled") (fun _ => [])
    (by decide) (by decide) rfl (by decide)
    (fun j hj => absurd hj (Nat.not_lt_zero j))
    (fun j hj => absurd hj (Nat.not_lt_zero j)) rfl

/-- Counterexample to C7 as stated: with the call cancelled between the
successful fetch of part 0 and its send (so the send fails with the
cancelled-stream error), the sink still receives the attempted send of
part 0 — no cancellation check stopped it — and the call's terminal
error is the send's own error, which does not classify as `Cancelled`. -/
theorem C7_no_precheck_counterexample :
    Event.send 0 [42] ∈ (Download sendFailWorld ⟨"b", "k"⟩).2 ∧
    (Download sendFailWorld ⟨"b", "k"⟩).1 =
      .error (.sendFailed "rpc error: code = Canceled desc = context canceled") ∧
    errClass (.sendFailed "rpc error: code = Canceled desc = context canceled") ≠
      .cancelled := by
  refine ⟨?_, rfl, by decide⟩
  show Event.send 0 [42] ∈
    [Event.head "b" "k", Event.get "b" "k" 0 0 0, Event.send 0 [42], Event.log "tid"]
  simp

/-- C6: when the metadata probe fails, the whole call fails with the
probe's cause wrapped together with the request's bucket and key, the
only event is the probe itself — so zero chunks were sent — and the
error classifies as `NotFound` or `Unavailable` according to the cause. -/
theorem C6_head_failure_clean (w : World) (req : DownloadRequest) (cause : StoreFailure)
    (hk : req.key ≠ "") (hb : req.bucket ≠ "") (hhead : w.headResult = .error cause) :
    Download w req =
      (.error (.headFailed req.bucket req.key cause), [.head req.bucket req.key]) ∧
    sentChunks (Download w req).2 = [] ∧
    errClass (.headFailed req.bucket req.key cause) = causeClass cause ∧
    (causeClass cause = .notFound ∨ causeClass cause = .unavailable) := by
  have hD : Download w req =
      (.error (.headFailed req.bucket req.key cause), [.head req.bucket req.key]) := by
    simp [Download, hk, hb, hhead]
  refine ⟨hD, by rw [hD]; rfl, rfl, ?_⟩
  cases cause <;> simp [causeClass]

/-- Witness for C6 at a missing key. -/
theorem C6_head_failure_clean_witness :
    Download probeFailWorld ⟨"testbucket", "missing.txt"⟩ =
      (.error (.headFailed "testbucket" "missing.txt" (.noSuchKey "NoSuchKey")),
       [.head "testbucket" "missing.txt"]) ∧
    sentChunks (Download probeFailWorld ⟨"testbucket", "missing.txt"⟩).2 = [] ∧
    errClass (.headFailed "testbucket" "missing.txt" (.noSuchKey "NoSuchKey")) =
      causeClass (.noSuchKey "NoSuchKey") ∧
    (causeClass (.noSuchKey "NoSuchKey") = .notFound ∨
      causeClass (.noSuchKey "NoSuchKey") = .unavailable) :=
  C6_head_failure_clean probeFailWorld ⟨"testbucket", "missing.txt"⟩
    (.noSuchKey "NoSuchKey") (by decide) (by decide) rfl

/-- C8: `ExtractTraceParent` returns the parsed trace id exactly when the
traceparent header is present with exactly one value that parses; with no
metadata, zero values, several values, or an unparsable value it returns
the empty string — and being a total function into `String`, it never
fails the call. -/
theorem C8_extract_trace_parent (parse : String → Except String TraceContext)
    (headerValues : Option (List String)) :
    (headerValues = none → ExtractTraceParent parse headerValues = "") ∧
    (headerValues = some [] → ExtractTraceParent parse headerValues = "") ∧
    (∀ v v' rest, headerValues = some (v :: v' :: rest) →
      ExtractTraceParent parse headerValues = "") ∧
    (∀ v msg, headerValues = some [v] → parse v = .error msg →
      ExtractTraceParent parse headerValues = "") ∧
    (∀ v traceCtx, headerValues = some [v] → parse v = .ok traceCtx →
      ExtractTraceParent parse headerValues = traceCtx.traceId) := by
  refine ⟨?_, ?_, ?_, ?_, ?_⟩ <;> intros <;> subst_vars <;> simp_all [ExtractTraceParent]

/-- Witness for C8: one parsable value, and an absent header. -/
theorem C8_extract_trace_parent_witness :
    ExtractTraceParent parseFix (some ["00-abc"]) = "abc" ∧
    ExtractTraceParent parseFix none = "" :=
  ⟨(C8_extract_trace_parent parseFix (some ["00-abc"])).2.2.2.2 "00-abc" ⟨"abc"⟩ rfl
      (by simp [parseFix]),
   (C8_extract_trace_parent parseFix none).1 rfl⟩

/-- C9: after every tick the recorded health state is `SERVING` exactly
when that tick's `ListBuckets` probe succeeded and `NOT_SERVING` when it
failed; the worker's state trace is defined and of length `n` for every
`n` and every failure pattern — a failing probe only flips the state and
never stops the loop. -/
theorem C9_health_worker (listBuckets : Nat → Option String) (n : Nat) :
    healthCheckWorker listBuckets n =
      (List.range n).map (fun tick =>
        match listBuckets tick with
        | some _ => HealthState.notServing
        | none => HealthState.serving) ∧
    (healthCheckWorker listBuckets n).length = n := by
  have h : healthCheckWorker listBuckets n =
      (List.range n).map (fun tick =>
        match listBuckets tick with
        | some _ => HealthState.notServing
        | none => HealthState.serving) := by
    induction n with
    | zero => rfl
    | succ n ih => rw [healthCheckWorker, ih, List.range_succ, List.map_append]; rfl
  exact ⟨h, by rw [h]; simp⟩

/-- C10: with a buffer shorter than `PartSize`, `Read` returns
`(0, ErrBufferLength)` without consuming a message; with a buffer of at
least `PartSize` it consumes exactly one chunk and returns its payload
length when the payload fits, but silently discards the chunk — returning
`(0, nil)` with the message consumed — when the payload is longer than
the buffer. -/
theorem C10_stream_read (recvResult : Except String (List Nat)) (pLen : Nat) :
    (pLen < PartSize → Read recvResult pLen = ((0, some ErrBufferLength), false)) ∧
    (PartSize ≤ pLen →
      ∀ part, recvResult = .ok part →
        (Read recvResult pLen).2 = true ∧
        (part.length ≤ pLen → Read recvResult pLen = ((part.length, none), true)) ∧
        (pLen < part.length → Read recvResult pLen = ((0, none), true))) := by
  constructor
  · intro h
    simp [Read, h]
  · intro h part hr
    subst hr
    have hnot : ¬ pLen < PartSize := by omega
    refine ⟨by simp [Read, hnot], ?_, ?_⟩
    · intro hfit
      simp [Read, hnot, hfit, Nat.min_eq_right hfit]
    · intro hbig
      have hnofit : ¬ pLen ≥ part.length := by omega
      simp [Read, hnot, hnofit]

/-- Witness for C10: a fitting chunk with a `PartSize` buffer, and a
too-small buffer. -/
theorem C10_stream_read_witness :
    Read (.ok [1, 2, 3]) PartSize = ((3, none), true) ∧
    Read (.ok [1, 2, 3]) 4 = ((0, some ErrBufferLength), false) :=
  ⟨((C10_stream_read (.ok [1, 2, 3]) PartSize).2 (Nat.le_refl _) [1, 2, 3] rfl).2.1
      (by decide),
   (C10_stream_read (.ok [1, 2, 3]) 4).1 (by decide)⟩

end DownloadService
